import Mathlib

/-!
Verification of the Drive_Backup_Threading upload orchestrator.

The definitions below are a shallow embedding of `src/Drive_Backup.py`
(and, where noted, of `src/main.py`).  External collaborators — the remote
Drive API, the local filesystem and the thread pool — are modelled as
explicit data fed to the embedded functions: a `DriveStore` value for the
remote folder store, a listing of file names for the source directory, and
a script of per-chunk outcomes for the network during one resumable upload.
Time is abstract: a `sleep d` is recorded in an output trace instead of
being performed.  The float `backoff` variable of the source only ever
holds the values 1, 2, 4, 8, 16, 32 (exact in binary floating point), so it
is embedded as a `Nat`.
-/

namespace DriveBackup

/-- Configuration constants of `src/Drive_Backup.py` lines 29-31. -/
def MAX_WORKERS : Nat := 4

/-- `CHUNK_SIZE = 8 * 1024 * 1024` (Drive_Backup.py line 30). -/
def CHUNK_SIZE : Nat := 8 * 1024 * 1024

/-- `MAX_RETRIES = 8` (Drive_Backup.py line 31). -/
def MAX_RETRIES : Nat := 8

/-- The remote file descriptor returned by a completed upload
(the fields requested at Drive_Backup.py line 123). -/
structure DriveFile where
  id : String
  name : String
  webViewLink : Option String
deriving DecidableEq

/-- One iteration of the `while True` loop of `_upload_with_resumable`
(Drive_Backup.py lines 129-147), as seen from the program: the call
`request.next_chunk()` either reports fractional progress, or returns the
final response, or raises an `HttpError` carrying an extracted status
`code` (lines 136-139; an inextractable code is normalised to 0 at line
139), or raises some non-HTTP exception such as a local I/O error, which
the `except HttpError` clause does not catch. -/
inductive ChunkOutcome where
  | progress
  | done (resp : DriveFile)
  | error (code : Nat)
  | localError (msg : String)
deriving DecidableEq

/-- How one invocation of `_upload_with_resumable` terminates: a returned
response, a re-raised `HttpError` with its status code (line 147), or a
propagated non-HTTP exception.  `scriptEnded` marks exhaustion of the
supplied outcome script and corresponds to no program behaviour. -/
inductive EngineResult where
  | success (resp : DriveFile)
  | raised (code : Nat)
  | raisedExc (msg : String)
  | scriptEnded
deriving DecidableEq

/-- The set of status codes treated as transient at Drive_Backup.py
line 141: `code in (403, 408, 429, 500, 502, 503, 504)`. -/
def retryableCodes : List Nat := [403, 408, 429, 500, 502, 503, 504]

/-- The retry loop of `_upload_with_resumable` (Drive_Backup.py lines
126-147), shallowly embedded over a script of chunk outcomes.  State
variables `backoff` (initially `1.0`) and `tries` (initially `0`) are
threaded as arguments; the returned list records, in order, the argument of
every `time.sleep(backoff)` the loop performs (line 144).  On a transient
code with `tries < MAX_RETRIES` the loop increments `tries`, sleeps
`backoff`, updates `backoff := min (backoff * 2) 32` (line 145) and retries;
otherwise the exception propagates (line 147). -/
def uploadRun (backoff tries : Nat) : List ChunkOutcome → EngineResult × List Nat
  | [] => (EngineResult.scriptEnded, [])
  | ChunkOutcome.done resp :: _ => (EngineResult.success resp, [])
  | ChunkOutcome.progress :: rest => uploadRun backoff tries rest
  | ChunkOutcome.localError msg :: _ => (EngineResult.raisedExc msg, [])
  | ChunkOutcome.error code :: rest =>
      if code ∈ retryableCodes ∧ tries < MAX_RETRIES then
        let r := uploadRun (min (backoff * 2) 32) (tries + 1) rest
        (r.1, backoff :: r.2)
      else
        (EngineResult.raised code, [])

/-- `_upload_with_resumable` enters its loop with `backoff = 1.0` and
`tries = 0` (Drive_Backup.py lines 126-127). -/
def upload_with_resumable (script : List ChunkOutcome) : EngineResult × List Nat :=
  uploadRun 1 0 script

end DriveBackup

namespace DriveBackup

/-- A folder of the remote store, with the fields the queries of
`_ensure_drive_folder` inspect: its id, its name and its trashed flag.
Only folders (`mimeType = application/vnd.google-apps.folder`) are
modelled; plain files never match the folder query. -/
structure DriveFolder where
  id : String
  name : String
  trashed : Bool
deriving DecidableEq

/-- The remote Drive folder store: the folders in listing order (the order
the `files().list` call returns matches in) plus a counter allocating
fresh folder ids for `files().create`. -/
structure DriveStore where
  folders : List DriveFolder
  nextId : Nat
deriving DecidableEq

/-- The `service.files().list(q = mimeType folder and name = safe and
trashed = false, pageSize = 10)` call of Drive_Backup.py lines 95-100: the
non-trashed folders whose name matches exactly, in store listing order,
capped at the page size 10. -/
def listFolders (st : DriveStore) (name : String) : List DriveFolder :=
  (st.folders.filter (fun f => f.name == name && f.trashed == false)).take 10

/-- The `service.files().create(body = metadata)` call of Drive_Backup.py
lines 106-110: appends a fresh non-trashed folder with the requested name
and returns it together with the updated store. -/
def createFolder (st : DriveStore) (name : String) : DriveFolder × DriveStore :=
  let f : DriveFolder := ⟨"folder-id-" ++ toString st.nextId, name, false⟩
  (f, ⟨st.folders ++ [f], st.nextId + 1⟩)

/-- `_ensure_drive_folder` (Drive_Backup.py lines 86-111): list the
non-trashed folders matching the name; if any match, return the first
match's id and leave the store unchanged; otherwise create a folder with
that name and return the created id. -/
def ensure_drive_folder (st : DriveStore) (folder_name : String) :
    String × DriveStore :=
  match listFolders st folder_name with
  | f :: _ => (f.id, st)
  | [] =>
      let c := createFolder st folder_name
      (c.1.id, c.2)

/-- Python truthiness of an optional string: `None` and the empty string
are falsy. -/
def truthyOpt : Option String → Bool
  | none => false
  | some s => !(s == "")

/-- The destination-folder resolution prologue of `upload_folder_of_videos`
(Drive_Backup.py lines 156-162): a truthy `parent_folder_id` is used
directly; otherwise the folder name (defaulting to the local folder's base
name when falsy) is resolved through `_ensure_drive_folder`. -/
def resolveTarget (st : DriveStore) (parent_folder_id : Option String)
    (drive_folder_name : Option String) (local_basename : String) :
    String × DriveStore :=
  if truthyOpt parent_folder_id then
    (parent_folder_id.getD "", st)
  else
    let name := if truthyOpt drive_folder_name then drive_folder_name.getD ""
                else local_basename
    ensure_drive_folder st name

/-- The user-credential object fields that `_make_service_for_thread`
copies (Drive_Backup.py lines 74-81), plus an object identity `objId`
distinguishing distinct Python objects that hold equal field values. -/
structure Creds where
  token : String
  refresh_token : String
  token_uri : String
  client_id : String
  client_secret : String
  scopes : List String
  objId : Nat
deriving DecidableEq

/-- A Drive service, bound to the credentials it was built from
(`_make_service_from_creds`, Drive_Backup.py lines 60-61), with its own
object identity. -/
structure Service where
  creds : Creds
  objId : Nat
deriving DecidableEq

/-- Equality of the six copied credential fields, object identity aside. -/
def credFieldsEq (a b : Creds) : Prop :=
  a.token = b.token ∧ a.refresh_token = b.refresh_token ∧
  a.token_uri = b.token_uri ∧ a.client_id = b.client_id ∧
  a.client_secret = b.client_secret ∧ a.scopes = b.scopes

/-- The process state `_make_service_for_thread` reads and writes: the
shared `_base_creds` global, each worker thread's
`_thread_local.drive_service` slot, an allocator of fresh object
identities, and (instrumentation only) how many services were constructed
for each thread. -/
structure ProcState where
  baseCreds : Creds
  threadService : Nat → Option Service
  nextObj : Nat
  builtFor : Nat → Nat

/-- The credential clone of Drive_Backup.py lines 74-81: a fresh
`Credentials` object carrying copies of the six fields of `_base_creds`. -/
def cloneCreds (base : Creds) (fresh : Nat) : Creds :=
  ⟨base.token, base.refresh_token, base.token_uri, base.client_id,
   base.client_secret, base.scopes, fresh⟩

/-- `_make_service_for_thread` (Drive_Backup.py lines 64-83) as a state
transition of worker thread `tid`: return the thread's cached service if
one exists; otherwise clone the shared base credentials into a fresh
object, build a fresh service bound to that clone, cache it in the
thread-local slot and return it. -/
def make_service_for_thread (tid : Nat) (st : ProcState) : Service × ProcState :=
  match st.threadService tid with
  | some svc => (svc, st)
  | none =>
      let tcreds := cloneCreds st.baseCreds st.nextObj
      let svc : Service := ⟨tcreds, st.nextObj + 1⟩
      (svc,
       { baseCreds := st.baseCreds
         threadService := fun t => if t = tid then some svc else st.threadService t
         nextObj := st.nextObj + 2
         builtFor := fun t => if t = tid then st.builtFor t + 1 else st.builtFor t })

/-- Process start (Drive_Backup.py lines 190-191): `_base_creds` is loaded
once, no thread holds a service, object identities above the base
credential object's are fresh. -/
def initState (base : Creds) : ProcState :=
  ⟨base, fun _ => none, base.objId + 1, fun _ => 0⟩

/-- A sequence of `_make_service_for_thread` calls by the listed worker
threads, in order (the interleaving the pool happens to produce). -/
def runCalls (calls : List Nat) (st : ProcState) : ProcState :=
  calls.foldl (fun s t => (make_service_for_thread t s).2) st

/-- Invariant of the session provider: the shared base credential object is
never replaced, allocated identities stay above it, and every thread's slot
is either still empty with no construction performed, or filled by the
single service constructed for that thread, bound to a field-copy of the
base credentials that is a distinct object. -/
def SessionInv (base : Creds) (st : ProcState) : Prop :=
  st.baseCreds = base ∧ base.objId < st.nextObj ∧
  ∀ t, (st.builtFor t = 0 ∧ st.threadService t = none) ∨
       (st.builtFor t = 1 ∧ ∃ svc, st.threadService t = some svc ∧
          credFieldsEq svc.creds base ∧ svc.creds.objId ≠ base.objId)

theorem sessionInv_step (base : Creds) (st : ProcState) (t : Nat)
    (h : SessionInv base st) :
    SessionInv base (make_service_for_thread t st).2 := by
  obtain ⟨hbase, hobj, hslots⟩ := h
  cases hslot : st.threadService t with
  | some svc =>
      simpa [make_service_for_thread, hslot] using ⟨hbase, hobj, hslots⟩
  | none =>
      refine ⟨by simp [make_service_for_thread, hslot, hbase], ?_, ?_⟩
      · simp only [make_service_for_thread, hslot]
        omega
      · intro t'
        by_cases ht : t' = t
        · subst ht
          right
          have hb0 : st.builtFor t' = 0 := by
            rcases hslots t' with ⟨h0, -⟩ | ⟨-, svc, hs, -⟩
            · exact h0
            · rw [hs] at hslot
              cases hslot
          refine ⟨by simp [make_service_for_thread, hslot, hb0], ?_⟩
          refine ⟨⟨cloneCreds st.baseCreds st.nextObj, st.nextObj + 1⟩,
            by simp [make_service_for_thread, hslot], ?_, ?_⟩
          · subst hbase
            exact ⟨rfl, rfl, rfl, rfl, rfl, rfl⟩
          · subst hbase
            simp only [cloneCreds]
            omega
        · rcases hslots t' with ⟨h0, hn⟩ | ⟨h1, svc, hs, hf, ho⟩
          · left
            constructor <;> simp [make_service_for_thread, hslot, ht, h0, hn]
          · right
            refine ⟨by simp [make_service_for_thread, hslot, ht, h1],
              svc, by simp [make_service_for_thread, hslot, ht, hs], hf, ho⟩

theorem sessionInv_runCalls (base : Creds) (calls : List Nat) (st : ProcState)
    (h : SessionInv base st) : SessionInv base (runCalls calls st) := by
  induction calls generalizing st with
  | nil => exact h
  | cons c cs ih =>
      exact ih _ (sessionInv_step base st c h)

/-- Once a worker's slot holds a service, no later call by any worker
changes that slot. -/
theorem threadService_stable (tid : Nat) (svc : Service) (st : ProcState)
    (h : st.threadService tid = some svc) :
    ∀ more, (runCalls more st).threadService tid = some svc := by
  intro more
  induction more generalizing st with
  | nil => exact h
  | cons c cs ih =>
      refine ih _ ?_
      cases hslot : st.threadService c with
      | some s => simpa [make_service_for_thread, hslot] using h
      | none =>
          by_cases hct : tid = c
          · subst hct
            rw [hslot] at h
            cases h
          · simpa [make_service_for_thread, hslot, hct] using h

/-- C7: the session provider.  Over every interleaving of
`_make_service_for_thread` calls from process start: a worker's repeated
call returns the very service its previous call returned; no worker ever
has more than one service constructed for it; the shared base credential
object is never replaced; and whatever service a worker's slot holds is
bound to a copy of the base credential (equal token fields, distinct
object) — never to the shared credential object itself — and is what every
later call by that worker returns, whatever other workers do in between. -/
theorem session_provider (base : Creds) (calls : List Nat) (tid : Nat) :
    (make_service_for_thread tid
        ((make_service_for_thread tid (runCalls calls (initState base))).2)).1 =
      (make_service_for_thread tid (runCalls calls (initState base))).1 ∧
    (runCalls calls (initState base)).builtFor tid ≤ 1 ∧
    (runCalls calls (initState base)).baseCreds = base ∧
    credFieldsEq
      (make_service_for_thread tid (runCalls calls (initState base))).1.creds
      base ∧
    (make_service_for_thread tid (runCalls calls (initState base))).1.creds.objId ≠
      base.objId ∧
    (∀ svc, (runCalls calls (initState base)).threadService tid = some svc →
      ∀ more,
        (make_service_for_thread tid
          (runCalls more (runCalls calls (initState base)))).1 = svc) := by
  have hinv : SessionInv base (runCalls calls (initState base)) :=
    sessionInv_runCalls base calls (initState base)
      ⟨rfl, Nat.lt_succ_self _, fun _ => Or.inl ⟨rfl, rfl⟩⟩
  obtain ⟨hbase, hobj, hslots⟩ := hinv
  refine ⟨?_, ?_, hbase, ?_, ?_, ?_⟩
  · cases hslot : (runCalls calls (initState base)).threadService tid with
    | some svc => simp [make_service_for_thread, hslot]
    | none => simp [make_service_for_thread, hslot]
  · rcases hslots tid with ⟨h0, -⟩ | ⟨h1, -⟩
    · omega
    · omega
  · rcases hslot : (runCalls calls (initState base)).threadService tid with - | svc
    · have h1 : (make_service_for_thread tid (runCalls calls (initState base))).1.creds =
          cloneCreds base (runCalls calls (initState base)).nextObj := by
        simp [make_service_for_thread, hslot, hbase]
      rw [h1]
      exact ⟨rfl, rfl, rfl, rfl, rfl, rfl⟩
    · rcases hslots tid with ⟨-, hn⟩ | ⟨-, svc', hs, hf, -⟩
      · rw [hn] at hslot
        cases hslot
      · rw [hs] at hslot
        cases hslot
        simpa [make_service_for_thread, hs] using hf
  · rcases hslot : (runCalls calls (initState base)).threadService tid with - | svc
    · have h1 : (make_service_for_thread tid (runCalls calls (initState base))).1.creds.objId =
          (runCalls calls (initState base)).nextObj := by
        simp [make_service_for_thread, hslot, cloneCreds]
      rw [h1]
      omega
    · rcases hslots tid with ⟨-, hn⟩ | ⟨-, svc', hs, -, ho⟩
      · rw [hn] at hslot
        cases hslot
      · rw [hs] at hslot
        cases hslot
        simpa [make_service_for_thread, hs] using ho
  · intro svc hslot more
    have := threadService_stable tid svc _ hslot more
    simp [make_service_for_thread, this]

/-- Witness for `session_provider`: one worker, one prior call; the slot
then holds the service built over the field-copy of the base credentials,
and a repeated call returns exactly it. -/
theorem session_provider_witness :
    (make_service_for_thread 0
        (runCalls [] (runCalls [0] (initState
          (Creds.mk "tok" "ref" "uri" "cid" "sec" [] 0))))).1 =
      Service.mk (cloneCreds (Creds.mk "tok" "ref" "uri" "cid" "sec" [] 0) 1) 2 :=
  (session_provider (Creds.mk "tok" "ref" "uri" "cid" "sec" [] 0) [0] 0).2.2.2.2.2
    (Service.mk (cloneCreds (Creds.mk "tok" "ref" "uri" "cid" "sec" [] 0) 1) 2)
    rfl []

/-- The in-flight accounting of one batch run through the worker pool:
tasks not yet started, tasks currently executing (sending), tasks
completed. -/
structure PoolState where
  pending : Nat
  running : Nat
  finished : Nat
deriving DecidableEq

/-- Modelled from the spec: the scheduling discipline of the fixed-size
worker pool.  `ThreadPoolExecutor` itself is library code outside this
repository's sources; per the spec's scheduling model, a pool of `maxW`
workers each executes at most one task at a time, so a pending task can
start only while fewer than `maxW` tasks are in flight, and any in-flight
task may finish. -/
inductive PoolStep (maxW : Nat) : PoolState → PoolState → Prop
  | start (s : PoolState) (hw : s.running < maxW) (hp : 0 < s.pending) :
      PoolStep maxW s ⟨s.pending - 1, s.running + 1, s.finished⟩
  | finish (s : PoolState) (hr : 0 < s.running) :
      PoolStep maxW s ⟨s.pending, s.running - 1, s.finished + 1⟩

/-- Reachability under pool scheduling steps. -/
def poolReach (maxW : Nat) : PoolState → PoolState → Prop :=
  Relation.ReflTransGen (PoolStep maxW)

/-- A batch starts with all `n` submitted tasks pending and none in
flight (Drive_Backup.py lines 172-176). -/
def initPool (n : Nat) : PoolState :=
  ⟨n, 0, 0⟩

/-- C9: with the pool bounded at `MAX_WORKERS = 4` workers (the value
`upload_folder_of_videos` passes at Drive_Backup.py line 172), every state
reachable from a batch start of any size has at most 4 tasks in the
sending state. -/
theorem concurrency_bound (n : Nat) (s : PoolState)
    (h : poolReach MAX_WORKERS (initPool n) s) :
    s.running ≤ MAX_WORKERS ∧ MAX_WORKERS = 4 := by
  refine ⟨?_, rfl⟩
  induction h with
  | refl => simp [initPool]
  | tail hr step ih =>
      cases step with
      | start hw hp => exact hw
      | finish hrun => exact le_trans (Nat.sub_le _ _) ih

/-- Witness for `concurrency_bound`: after one task of a 10-task batch
starts, one task is in flight — within the bound. -/
theorem concurrency_bound_witness :
    (PoolState.mk 9 1 0).running ≤ MAX_WORKERS ∧ MAX_WORKERS = 4 :=
  concurrency_bound 10 (PoolState.mk 9 1 0)
    (Relation.ReflTransGen.single
      (PoolStep.start (initPool 10) (by decide) (by decide)))

/-- The terminal outcome of one submitted upload task, as observed by the
dispatcher through `fut.result()` (Drive_Backup.py line 180): either the
response returned by `_upload_with_resumable`, or the exception it let
propagate. -/
inductive TaskOutcome where
  | ok (resp : DriveFile)
  | exc (msg : String)
deriving DecidableEq

/-- The `as_completed` collection loop of `upload_folder_of_videos`
(Drive_Backup.py lines 177-185), over the submitted tasks' terminal
outcomes listed in completion order, each paired with the task's display
name.  A task whose `fut.result()` returns appends its response to
`results`; a task whose `fut.result()` raises is caught by the
`except Exception` clause and recorded as a printed per-file FAILED line
(second component), never re-raised.  Returns `(results, failed names)`. -/
def collectResults : List (String × TaskOutcome) → List DriveFile × List String
  | [] => ([], [])
  | (_, TaskOutcome.ok r) :: rest =>
      let p := collectResults rest
      (r :: p.1, p.2)
  | (name, TaskOutcome.exc _) :: rest =>
      let p := collectResults rest
      (p.1, name :: p.2)

/-- The responses of the successfully completed tasks, in completion
order. -/
def okResponses (completed : List (String × TaskOutcome)) : List DriveFile :=
  completed.filterMap fun x =>
    match x.2 with
    | TaskOutcome.ok r => some r
    | TaskOutcome.exc _ => none

/-- The names of the failed tasks, in completion order. -/
def excNames (completed : List (String × TaskOutcome)) : List String :=
  completed.filterMap fun x =>
    match x.2 with
    | TaskOutcome.ok _ => none
    | TaskOutcome.exc _ => some x.1

/-- The glob pattern `*.mp4` of `_gather_mp4s` (Drive_Backup.py line 152):
a name matches iff it ends in `.mp4`.  Spelled over the underlying
character list so that concrete instances evaluate inside the kernel. -/
def matchesMp4Glob (n : String) : Bool :=
  List.isSuffixOf ".mp4".data n.data

/-- Lexicographic comparison of character lists by Unicode code point: the
order Python `sorted` applies to strings.  (The library order on `String`
is the same relation, but its comparison function does not reduce inside
the kernel, so the embedding spells it out.) -/
def charsLe : List Char → List Char → Bool
  | [], _ => true
  | _ :: _, [] => false
  | a :: as, b :: bs => if a = b then charsLe as bs else decide (a < b)

/-- Lexicographic order on strings, as used by Python `sorted` on the
globbed paths.  All gathered paths share the directory prefix, so sorting
the base names is sorting the paths. -/
def pathLe (a b : String) : Bool :=
  charsLe a.data b.data

/-- `pathLe` as a relation, for the sorting lemmas. -/
def pathRel (a b : String) : Prop :=
  pathLe a b = true

instance : DecidableRel pathRel :=
  fun _ _ => inferInstanceAs (Decidable (_ = true))

theorem charsLe_total : ∀ a b : List Char, charsLe a b = true ∨ charsLe b a = true
  | [], _ => Or.inl rfl
  | _ :: _, [] => Or.inr rfl
  | a :: as, b :: bs => by
      by_cases hab : a = b
      · subst hab
        simp only [charsLe, if_pos rfl]
        exact charsLe_total as bs
      · rcases lt_or_gt_of_ne hab with h | h
        · left
          simp [charsLe, hab, h]
        · right
          simp [charsLe, Ne.symm hab, h]

theorem charsLe_trans :
    ∀ a b c : List Char, charsLe a b = true → charsLe b c = true →
      charsLe a c = true
  | [], _, _, _, _ => rfl
  | _ :: _, [], _, h1, _ => by simp [charsLe] at h1
  | _ :: _, _ :: _, [], _, h2 => by simp [charsLe] at h2
  | x :: xs, y :: ys, z :: zs, h1, h2 => by
      by_cases hxy : x = y <;> by_cases hyz : y = z
      · subst hxy; subst hyz
        simp only [charsLe, if_pos rfl] at h1 h2 ⊢
        exact charsLe_trans _ _ _ h1 h2
      · subst hxy
        simp only [charsLe, if_neg hyz] at h2 ⊢
        exact h2
      · subst hyz
        simp only [charsLe, if_neg hxy] at h1 ⊢
        exact h1
      · simp only [charsLe, if_neg hxy] at h1
        simp only [charsLe, if_neg hyz] at h2
        have hxz : x < z := lt_trans (of_decide_eq_true h1) (of_decide_eq_true h2)
        simp [charsLe, if_neg (ne_of_lt hxz), hxz]

theorem charsLe_antisymm :
    ∀ a b : List Char, charsLe a b = true → charsLe b a = true → a = b
  | [], [], _, _ => rfl
  | [], _ :: _, _, h2 => by simp [charsLe] at h2
  | _ :: _, [], h1, _ => by simp [charsLe] at h1
  | x :: xs, y :: ys, h1, h2 => by
      by_cases hxy : x = y
      · subst hxy
        simp only [charsLe, if_pos rfl] at h1 h2
        rw [charsLe_antisymm xs ys h1 h2]
      · simp only [charsLe, if_neg hxy, if_neg (Ne.symm hxy)] at h1 h2
        exact absurd (of_decide_eq_true h2) (lt_asymm (of_decide_eq_true h1))

instance : IsTotal String pathRel :=
  ⟨fun a b => charsLe_total a.data b.data⟩

instance : IsTrans String pathRel :=
  ⟨fun a b c h1 h2 => charsLe_trans a.data b.data c.data h1 h2⟩

instance : IsAntisymm String pathRel := by
  refine ⟨fun a b h1 h2 => ?_⟩
  obtain ⟨da⟩ := a
  obtain ⟨db⟩ := b
  have h := charsLe_antisymm da db h1 h2
  subst h
  rfl

/-- `_gather_mp4s` (Drive_Backup.py lines 150-152): filter the directory
listing down to the names matching the glob `*.mp4`, sort them (Python
`sorted` over paths sharing the directory prefix orders by name), and pair
each full path with its base name.  `listing` is the directory's contents
in raw filesystem enumeration order. -/
def gather_mp4s (folder : String) (listing : List String) :
    List (String × String) :=
  (List.insertionSort pathRel (listing.filter matchesMp4Glob)).map
    (fun n => (folder ++ "/" ++ n, n))

/-- `Path(local_folder).name`: the final path component (separator
modelled as `/`). -/
def pathBasename (p : String) : String :=
  (p.splitOn "/").getLastD ""

/-- The value of one whole `upload_folder_of_videos` run: the list the
function returns to its caller (`results`: the successful responses only),
the per-file FAILED names it printed, and the final remote folder store. -/
structure BatchRun where
  results : List DriveFile
  failedNames : List String
  store : DriveStore
deriving DecidableEq

/-- `upload_folder_of_videos` (Drive_Backup.py lines 155-186).  The
environment beyond the Python parameters: `st` the remote folder store,
`listing` the local directory contents in filesystem order, and `outcomes`
the submitted tasks' terminal outcomes in completion order.  The target
folder is resolved first; only then are the files gathered, and an empty
gather returns `[]` at once (lines 165-167). -/
def upload_folder_of_videos (st : DriveStore) (local_folder : String)
    (listing : List String) (parent_folder_id drive_folder_name : Option String)
    (outcomes : List (String × TaskOutcome)) : BatchRun :=
  let t := resolveTarget st parent_folder_id drive_folder_name
    (pathBasename local_folder)
  let files := gather_mp4s local_folder listing
  if files = [] then ⟨[], [], t.2⟩
  else
    let c := collectResults outcomes
    ⟨c.1, c.2, t.2⟩

/-- The collection loop distributes over concatenation of the
completion-ordered outcome list. -/
theorem collectResults_append (a b : List (String × TaskOutcome)) :
    collectResults (a ++ b) =
      ((collectResults a).1 ++ (collectResults b).1,
       (collectResults a).2 ++ (collectResults b).2) := by
  induction a with
  | nil => simp [collectResults]
  | cons x xs ih =>
      obtain ⟨nm, o⟩ := x
      cases o <;> simp [collectResults, ih]

/-- The collection loop is exactly the success/failure split of the
outcome list. -/
theorem collectResults_eq (l : List (String × TaskOutcome)) :
    collectResults l = (okResponses l, excNames l) := by
  induction l with
  | nil => rfl
  | cons x xs ih =>
      obtain ⟨nm, o⟩ := x
      cases o <;> simp [collectResults, okResponses, excNames, ih]

/-- C1: an upload whose chunk sends fail with a transient status code on
every attempt performs exactly `MAX_RETRIES = 8` retries, sleeping
1, 2, 4, 8, 16, 32, 32, 32 time units before them (the first retry uses the
initial backoff 1; each later backoff is `min (previous * 2) 32`), and then
the failure propagates out of the engine as a terminal per-file failure. -/
theorem retry_exhaustion (c : Nat) (hc : c ∈ retryableCodes)
    (rest : List ChunkOutcome) :
    upload_with_resumable
        (List.replicate 9 (ChunkOutcome.error c) ++ rest) =
      (EngineResult.raised c, [1, 2, 4, 8, 16, 32, 32, 32]) ∧
    MAX_RETRIES = 8 := by
  simp only [retryableCodes, List.mem_cons, List.not_mem_nil, or_false] at hc
  rcases hc with h | h | h | h | h | h | h <;> subst h <;>
    exact ⟨rfl, rfl⟩

/-- Witness for `retry_exhaustion` at the concrete transient code 503. -/
theorem retry_exhaustion_witness :
    upload_with_resumable
        (List.replicate 9 (ChunkOutcome.error 503) ++ []) =
      (EngineResult.raised 503, [1, 2, 4, 8, 16, 32, 32, 32]) ∧
    MAX_RETRIES = 8 :=
  retry_exhaustion 503 (by decide) []

/-- C3: a chunk send failing with a status code outside the retryable set
{403, 408, 429, 500, 502, 503, 504} — after any number of successful
progress chunks — makes the engine abort at once: no sleep, no retry, the
failure propagates.  Likewise a non-HTTP local error, which the
`except HttpError` clause never catches. -/
theorem nonretryable_short_circuit (k c : Nat) (hc : c ∉ retryableCodes)
    (rest : List ChunkOutcome) (msg : String) :
    upload_with_resumable
        (List.replicate k ChunkOutcome.progress ++ ChunkOutcome.error c :: rest) =
      (EngineResult.raised c, []) ∧
    upload_with_resumable
        (List.replicate k ChunkOutcome.progress ++ ChunkOutcome.localError msg :: rest) =
      (EngineResult.raisedExc msg, []) := by
  induction k with
  | zero =>
      refine ⟨?_, rfl⟩
      simp only [List.replicate, List.nil_append, upload_with_resumable, uploadRun]
      rw [if_neg]
      rintro ⟨h, -⟩
      exact hc h
  | succ n ih =>
      simpa only [List.replicate_succ, List.cons_append, upload_with_resumable,
        uploadRun] using ih

/-- Witness for `nonretryable_short_circuit`: one successful progress chunk,
then a 404. -/
theorem nonretryable_short_circuit_witness :
    upload_with_resumable
        (List.replicate 1 ChunkOutcome.progress ++ ChunkOutcome.error 404 :: []) =
      (EngineResult.raised 404, []) ∧
    upload_with_resumable
        (List.replicate 1 ChunkOutcome.progress ++ ChunkOutcome.localError "unreadable" :: []) =
      (EngineResult.raisedExc "unreadable", []) :=
  nonretryable_short_circuit 1 404 (by decide) [] "unreadable"

/-- C4: folder resolution.  A truthy explicit folder id is returned
unchanged with the store untouched (no remote lookup: the result does not
depend on the store at all); otherwise the name is resolved through
`_ensure_drive_folder`, which returns the first listed non-trashed exact
match when one exists (store unchanged), and only when no match exists
creates a folder with that name and returns the created folder's id. -/
theorem folder_resolution (st : DriveStore) (pid nm lb : String)
    (dfn : Option String) (f : DriveFolder) (rest : List DriveFolder)
    (hpid : pid ≠ "") (hnm : nm ≠ "") :
    resolveTarget st (some pid) dfn lb = (pid, st) ∧
    resolveTarget st none (some nm) lb = ensure_drive_folder st nm ∧
    (listFolders st nm = f :: rest → ensure_drive_folder st nm = (f.id, st)) ∧
    (listFolders st nm = [] →
      ensure_drive_folder st nm =
        ((createFolder st nm).1.id, (createFolder st nm).2) ∧
      (createFolder st nm).2.folders = st.folders ++ [(createFolder st nm).1] ∧
      (createFolder st nm).1.name = nm ∧
      (createFolder st nm).1.trashed = false) := by
  refine ⟨?_, ?_, ?_, ?_⟩
  · simp [resolveTarget, truthyOpt, hpid]
  · simp [resolveTarget, truthyOpt, hnm]
  · intro h
    simp [ensure_drive_folder, h]
  · intro h
    refine ⟨?_, rfl, rfl, rfl⟩
    simp [ensure_drive_folder, h]

/-- Witness for `folder_resolution`: a store holding one folder named
Testing_Drive; an explicit id passes through, and resolution by name finds
that folder. -/
theorem folder_resolution_witness :
    resolveTarget (DriveStore.mk [DriveFolder.mk "X" "Testing_Drive" false] 5)
        (some "abc") none "Source" =
      ("abc", DriveStore.mk [DriveFolder.mk "X" "Testing_Drive" false] 5) ∧
    ensure_drive_folder (DriveStore.mk [DriveFolder.mk "X" "Testing_Drive" false] 5)
        "Testing_Drive" =
      ("X", DriveStore.mk [DriveFolder.mk "X" "Testing_Drive" false] 5) :=
  ⟨(folder_resolution (DriveStore.mk [DriveFolder.mk "X" "Testing_Drive" false] 5)
      "abc" "Testing_Drive" "Source" none (DriveFolder.mk "X" "Testing_Drive" false) []
      (by decide) (by decide)).1,
   (folder_resolution (DriveStore.mk [DriveFolder.mk "X" "Testing_Drive" false] 5)
      "abc" "Testing_Drive" "Source" none (DriveFolder.mk "X" "Testing_Drive" false) []
      (by decide) (by decide)).2.2.1 (by decide)⟩

/-- C8: folder resolution is idempotent.  With no intervening store change,
a second `_ensure_drive_folder` call with the same name returns the id the
first call returned — it finds the folder the first call found or created —
and creates nothing further. -/
theorem folder_resolution_idempotent (st : DriveStore) (name : String) :
    (ensure_drive_folder (ensure_drive_folder st name).2 name).1 =
      (ensure_drive_folder st name).1 ∧
    (ensure_drive_folder (ensure_drive_folder st name).2 name).2 =
      (ensure_drive_folder st name).2 := by
  cases h : listFolders st name with
  | cons f rest =>
      constructor <;> simp [ensure_drive_folder, h]
  | nil =>
      have hfilter :
          st.folders.filter (fun f => f.name == name && !f.trashed) = [] := by
        have h10 := h
        unfold listFolders at h10
        rcases List.take_eq_nil_iff.mp h10 with h0 | hl
        · exact absurd h0 (by decide)
        · simpa using hl
      have h2 : listFolders (createFolder st name).2 name =
          [(createFolder st name).1] := by
        simp [listFolders, createFolder, List.filter_append, hfilter]
      constructor <;> simp [ensure_drive_folder, h, h2]

/-- C2: batch isolation.  One task's permanent failure neither aborts the
batch nor removes any other task's outcome: the collection loop is a total
function of the completion-ordered outcomes (it always returns, never
re-raising a task's exception), a failing task placed anywhere leaves every
other task's terminal record intact, and every submitted task contributes
exactly one terminal record — a collected response or a per-file FAILED
line. -/
theorem batch_isolation (pre post completed : List (String × TaskOutcome))
    (n msg : String) :
    collectResults (pre ++ (n, TaskOutcome.exc msg) :: post) =
      ((collectResults pre).1 ++ (collectResults post).1,
       (collectResults pre).2 ++ n :: (collectResults post).2) ∧
    (collectResults completed).1.length + (collectResults completed).2.length =
      completed.length := by
  constructor
  · rw [collectResults_append]
    simp [collectResults]
  · induction completed with
    | nil => rfl
    | cons x xs ih =>
        obtain ⟨nm, o⟩ := x
        cases o <;> simp [collectResults] <;> omega

/-- C6: deterministic lexicographic submission order in the orchestrator's
enumeration (`_gather_mp4s`): the gathered task list is invariant under
permutations of the filesystem's enumeration order, its names come out
sorted, and the directory {b.mp4, a.mp4, c.mp4} yields submissions
[a.mp4, b.mp4, c.mp4]. -/
theorem submission_order (folder : String) (l₁ l₂ : List String)
    (hperm : l₁.Perm l₂) :
    gather_mp4s folder l₁ = gather_mp4s folder l₂ ∧
    List.Sorted pathRel ((gather_mp4s folder l₁).map Prod.snd) ∧
    gather_mp4s "Source" ["b.mp4", "a.mp4", "c.mp4"] =
      [("Source/a.mp4", "a.mp4"), ("Source/b.mp4", "b.mp4"),
       ("Source/c.mp4", "c.mp4")] := by
  have hfil := hperm.filter matchesMp4Glob
  have hs₁ := List.sorted_insertionSort pathRel (l₁.filter matchesMp4Glob)
  have hs₂ := List.sorted_insertionSort pathRel (l₂.filter matchesMp4Glob)
  have hsort :
      List.insertionSort pathRel (l₁.filter matchesMp4Glob) =
        List.insertionSort pathRel (l₂.filter matchesMp4Glob) :=
    List.eq_of_perm_of_sorted
      ((List.perm_insertionSort _ _).trans
        (hfil.trans (List.perm_insertionSort _ _).symm)) hs₁ hs₂
  refine ⟨?_, ?_, ?_⟩
  · unfold gather_mp4s
    rw [hsort]
  · have hmap : (gather_mp4s folder l₁).map Prod.snd =
        List.insertionSort pathRel (l₁.filter matchesMp4Glob) := by
      simp only [gather_mp4s, List.map_map]
      rw [show (Prod.snd ∘ fun n : String => (folder ++ "/" ++ n, n)) = id from rfl,
        List.map_id]
    rw [hmap]
    exact hs₁
  · decide

/-- Witness for `submission_order`: two enumeration orders of the same
directory produce the same gathered task list. -/
theorem submission_order_witness :
    gather_mp4s "d" ["b.mp4", "x.txt", "a.mp4"] =
      gather_mp4s "d" ["a.mp4", "b.mp4", "x.txt"] :=
  (submission_order "d" ["b.mp4", "x.txt", "a.mp4"] ["a.mp4", "b.mp4", "x.txt"]
    (by decide)).1

/-- C5 counterexample: a batch of one submitted task whose upload fails
permanently.  The value `upload_folder_of_videos` returns to its caller is
the empty list — zero entries for one submitted task — so the returned
report does not give every submitted task an entry (the failure is only
printed). -/
theorem returned_report_omits_failures :
    (upload_folder_of_videos (DriveStore.mk [] 0) "Source" ["a.mp4"]
        (some "X") none
        [("a.mp4", TaskOutcome.exc "after retries")]).results = [] ∧
    (upload_folder_of_videos (DriveStore.mk [] 0) "Source" ["a.mp4"]
        (some "X") none
        [("a.mp4", TaskOutcome.exc "after retries")]).results.length ≠ 1 := by
  constructor <;> decide

/-- C5 amended: the value returned to the caller contains exactly the
successful tasks' responses in completion order; failed tasks are recorded
only as printed per-file FAILED lines and contribute no entry to the
returned value, so an all-failure batch returns the empty list while every
failure still gets its printed line. -/
theorem returned_report_is_successes (completed : List (String × TaskOutcome)) :
    (collectResults completed).1 = okResponses completed ∧
    (collectResults completed).2 = excNames completed ∧
    (upload_folder_of_videos (DriveStore.mk [] 0) "Source" ["a.mp4", "b.mp4"]
        (some "X") none
        [("b.mp4", TaskOutcome.exc "quota"), ("a.mp4", TaskOutcome.exc "quota")]) =
      BatchRun.mk [] ["b.mp4", "a.mp4"] (DriveStore.mk [] 0) := by
  refine ⟨?_, ?_, by decide⟩
  · rw [collectResults_eq]
  · rw [collectResults_eq]

/-- C10: a run over a directory with no `*.mp4` file returns the empty
list, but only after resolving the destination folder: the final store is
the store left by `resolveTarget`, and when no explicit id is given, the
name is absent from the store, and a folder name is supplied, that
resolution has created the folder remotely. -/
theorem empty_batch_still_resolves (st : DriveStore) (local_folder nm : String)
    (listing : List String) (dfn : Option String)
    (outcomes : List (String × TaskOutcome))
    (hmp4 : ∀ n ∈ listing, matchesMp4Glob n = false) :
    (∀ pfid, upload_folder_of_videos st local_folder listing pfid dfn outcomes =
      BatchRun.mk [] []
        (resolveTarget st pfid dfn (pathBasename local_folder)).2) ∧
    (dfn = some nm → nm ≠ "" → listFolders st nm = [] →
      (resolveTarget st none dfn (pathBasename local_folder)).2.folders =
        st.folders ++ [(createFolder st nm).1]) := by
  have hnilf : listing.filter matchesMp4Glob = [] := by
    rw [List.filter_eq_nil_iff]
    intro a ha
    simp [hmp4 a ha]
  have hnil : gather_mp4s local_folder listing = [] := by
    simp [gather_mp4s, hnilf]
  constructor
  · intro pfid
    simp [upload_folder_of_videos, hnil]
  · intro hdfn hnm hlist
    subst hdfn
    simp [resolveTarget, truthyOpt, hnm, ensure_drive_folder, hlist, createFolder]

/-- Witness for `empty_batch_still_resolves`: an empty store, a listing
holding only `notes.txt`, and the folder name Testing_Drive: the run
returns no results yet the final store contains the newly created
folder. -/
theorem empty_batch_still_resolves_witness :
    upload_folder_of_videos (DriveStore.mk [] 0) "Source" ["notes.txt"]
        none (some "Testing_Drive") [] =
      BatchRun.mk [] []
        (resolveTarget (DriveStore.mk [] 0) none (some "Testing_Drive")
          (pathBasename "Source")).2 ∧
    (resolveTarget (DriveStore.mk [] 0) none (some "Testing_Drive")
        (pathBasename "Source")).2.folders =
      ([] : List DriveFolder) ++ [(createFolder (DriveStore.mk [] 0) "Testing_Drive").1] :=
  ⟨(empty_batch_still_resolves (DriveStore.mk [] 0) "Source" "Testing_Drive"
      ["notes.txt"] (some "Testing_Drive") [] (by decide)).1 none,
   (empty_batch_still_resolves (DriveStore.mk [] 0) "Source" "Testing_Drive"
      ["notes.txt"] (some "Testing_Drive") [] (by decide)).2 rfl (by decide)
      (by decide)⟩

end DriveBackup
